import Mathlib

set_option maxHeartbeats 1000000

/-
A shallow embedding of src/src/index.ts (the slimshell package): the data
model (IArgumentDefinition, ICommandResponse, ICommandDefinition), the
constructor's exit-command installation, the registry lookup and dispatch
of runCommand, the prompt loop of getArgument, and the fluent builder
stages (on / with / call / requiring).  Interactive input is modelled by a
script of prompt events; console output, listener registration and the
readline reset are tracked explicitly in the results.
-/

namespace Slimshell

/-- A scalar flag value as produced by flag tokenization:
string or number or boolean (index.ts lines 11-15). -/
inductive Scalar where
  | str : String → Scalar
  | num : Int → Scalar
  | boolVal : Bool → Scalar
deriving DecidableEq, Repr

/-- A bag value: a scalar or an array of scalars (index.ts lines 11-15). -/
inductive JSValue where
  | scalar : Scalar → JSValue
  | arr : List Scalar → JSValue
deriving DecidableEq, Repr

/-- JS truthiness of a scalar: the empty string, 0 and false are falsy. -/
def Scalar.truthy : Scalar → Bool
  | Scalar.str s => !s.isEmpty
  | Scalar.num n => decide (n ≠ 0)
  | Scalar.boolVal b => b

/-- JS truthiness of a bag value; arrays are always truthy. -/
def JSValue.truthy : JSValue → Bool
  | JSValue.scalar s => s.truthy
  | JSValue.arr _ => true

/-- Update of a JS object with string keys, kept as an insertion-ordered
association list: an existing key is updated in place, a new key is
appended (JS property insertion order). -/
def assocSet {α : Type} : List (String × α) → String → α → List (String × α)
  | [], k, v => [(k, v)]
  | (k', v') :: rest, k, v =>
    if k' = k then (k, v) :: rest else (k', v') :: assocSet rest k v

/-- The argument bag (IArguments plus whatever minimist produced).  A key
that is present but holds the JS value undefined carries `none`. -/
abbrev Bag := List (String × Option JSValue)

/-- Reading `args[k]`: undefined (`none`) when the key is absent or the key
holds undefined. -/
def bagGet (bag : Bag) (k : String) : Option JSValue :=
  match bag.lookup k with
  | some v => v
  | none => none

/-- Writing `args[k] = v` (v may be the JS value undefined). -/
def bagSet (bag : Bag) (k : String) (v : Option JSValue) : Bag :=
  assocSet bag k v

/-- Truthiness of a read result: undefined is falsy. -/
def truthyOpt : Option JSValue → Bool
  | none => false
  | some v => v.truthy

/-- Remove leading and trailing whitespace from a character list. -/
def trimChars (l : List Char) : List Char :=
  ((l.dropWhile Char.isWhitespace).reverse.dropWhile Char.isWhitespace).reverse

/-- The JS String.prototype.trim used at lines 102 and 124, modelled over
the string's characters so that it evaluates by kernel reduction. -/
def jsTrim (s : String) : String :=
  String.mk (trimChars s.data)

/-- IArgumentDefinition (index.ts lines 5-9); `alternatives` is optional. -/
structure IArgumentDefinition where
  description : String
  name : String
  alternatives : Option (List String)

/-- ICommandResponse (index.ts lines 17-20). -/
structure ICommandResponse where
  success : Bool
  messages : Option (List String)
deriving DecidableEq, Repr

/-- The handler type `Command` (line 29); the promise resolution is
modelled as a pure function from the bag to the response. -/
def Command : Type := Bag → ICommandResponse

/-- ICommandDefinition (index.ts lines 22-27). -/
structure ICommandDefinition where
  verb : String
  noun : Option String
  command : Command
  requiredArguments : Option (List IArgumentDefinition)

/-- NoCommand (lines 31-33): the placeholder handler installed by `on`. -/
def NoCommand : Command := fun _ => { success := true, messages := none }

/-- The built-in exit handler (lines 67-69). -/
def exit : Command := fun _ => { success := false, messages := some ["byeee"] }

/-- The registry `this.cds`: Record from verb to the ordered list of
definitions. -/
abbrev Registry := List (String × List ICommandDefinition)

/-- One scripted user interaction at an argument prompt: either a
submitted line (the readline callback, resolving with the trimmed text,
line 123-125) or the escape keypress (rejecting the promise, lines
117-121). -/
inductive PromptEvent where
  | submit : String → PromptEvent
  | cancel : PromptEvent
deriving DecidableEq, Repr

/-- Result of the prompt while-loop: the final value with the remaining
script and the number of prompts issued, an escape rejection, or a prompt
issued with no scripted interaction left (the real code blocks there). -/
inductive PromptLoopResult where
  | done : Option JSValue → List PromptEvent → Nat → PromptLoopResult
  | interrupted : List PromptEvent → Nat → PromptLoopResult
  | starved : Nat → PromptLoopResult
deriving DecidableEq, Repr

/-- The `while` loop of lines 152-162: `cur` is the current value of
`args[req.name]`; while it is falsy, getArgument is called, which
registers one keypress listener (counted in `prompts`) and either
resolves with the trimmed input or rejects on escape. -/
def promptLoop : Option JSValue → List PromptEvent → Nat → PromptLoopResult
  | cur, events, prompts =>
    if truthyOpt cur then PromptLoopResult.done cur events prompts
    else
      match events with
      | [] => PromptLoopResult.starved (prompts + 1)
      | PromptEvent.submit s :: rest =>
        promptLoop (some (JSValue.scalar (Scalar.str (jsTrim s)))) rest (prompts + 1)
      | PromptEvent.cancel :: rest => PromptLoopResult.interrupted rest (prompts + 1)

/-- Outcome of the required-argument loop of lines 145-165. `typeError`
models the TypeError thrown by `req.alternatives.find` when
`alternatives` is undefined (line 149), which is raised outside the
try/catch and so escapes runCommand. -/
inductive ResolveOutcome where
  | resolved : Bag → List PromptEvent → Nat → ResolveOutcome
  | cancelledRes : List PromptEvent → Nat → ResolveOutcome
  | typeError : Nat → ResolveOutcome
  | blockedRes : Nat → ResolveOutcome
deriving DecidableEq, Repr

/-- Lines 145-165: for each required argument, if `args[req.name]` is
falsy, assign `args[req.name] = req.alternatives.find(alt => args[alt]
!== undefined)` — note that Array.prototype.find returns the matching
ELEMENT, i.e. the alternative's name, not the bag value stored under it —
then prompt while the value remains falsy. -/
def resolveArgs : List IArgumentDefinition → Bag → List PromptEvent → Nat → ResolveOutcome
  | [], bag, events, prompts => ResolveOutcome.resolved bag events prompts
  | req :: rest, bag, events, prompts =>
    if truthyOpt (bagGet bag req.name) then
      resolveArgs rest bag events prompts
    else
      match req.alternatives with
      | none => ResolveOutcome.typeError prompts
      | some alts =>
        let found := alts.find? (fun alt => (bagGet bag alt).isSome)
        let bag1 := bagSet bag req.name
          (found.map (fun a => JSValue.scalar (Scalar.str a)))
        match promptLoop (bagGet bag1 req.name) events prompts with
        | PromptLoopResult.done v events1 prompts1 =>
          resolveArgs rest (bagSet bag1 req.name v) events1 prompts1
        | PromptLoopResult.interrupted events1 prompts1 =>
          ResolveOutcome.cancelledRes events1 prompts1
        | PromptLoopResult.starved prompts1 => ResolveOutcome.blockedRes prompts1

/-- Projection: prompts issued (= keypress listeners attached) during the
resolution. -/
def ResolveOutcome.prompts : ResolveOutcome → Nat
  | ResolveOutcome.resolved _ _ n => n
  | ResolveOutcome.cancelledRes _ n => n
  | ResolveOutcome.typeError n => n
  | ResolveOutcome.blockedRes n => n

/-- `this.cds[verb]?.find(def => def.noun === noun)` (lines 136-138). -/
def lookupCd (cds : Registry) (verb : String) (noun : Option String) :
    Option ICommandDefinition :=
  match cds.lookup verb with
  | none => none
  | some defs => defs.find? (fun d => decide (d.noun = noun))

/-- Result of one runCommand call (lines 129-174): `unmatched` prints
"  wut?" and returns true; `cancelledRun` resets the input, prints
"Cancelled" and returns true; `completed` carries the handler response,
the final bag the handler received, the remaining script and the prompt
count; `crashed` is the propagated TypeError; `blockedRun` a prompt left
waiting forever. -/
inductive RunResult where
  | unmatched : RunResult
  | cancelledRun : List PromptEvent → Nat → RunResult
  | completed : ICommandResponse → Bag → List PromptEvent → Nat → RunResult
  | crashed : Nat → RunResult
  | blockedRun : Nat → RunResult
deriving DecidableEq, Repr

/-- runCommand (lines 129-174) on an already-parsed line: the verb, the
noun (first positional token or undefined) and the minimist bag are the
inputs, since tokenization is an external collaborator. -/
def runCommand (cds : Registry) (verb : String) (noun : Option String)
    (args : Bag) (events : List PromptEvent) : RunResult :=
  match lookupCd cds verb noun with
  | none => RunResult.unmatched
  | some cd =>
    match cd.requiredArguments with
    | none => RunResult.completed (cd.command args) args events 0
    | some reqs =>
      match resolveArgs reqs args events 0 with
      | ResolveOutcome.resolved bag1 events1 prompts =>
        RunResult.completed (cd.command bag1) bag1 events1 prompts
      | ResolveOutcome.cancelledRes events1 prompts =>
        RunResult.cancelledRun events1 prompts
      | ResolveOutcome.typeError prompts => RunResult.crashed prompts
      | ResolveOutcome.blockedRes prompts => RunResult.blockedRun prompts

/-- Console lines printed by runCommand: line 141 prints the cyan
"  wut?", line 159 prints "Cancelled", lines 167-171 print each response
message with a two-space indent (chalk colouring is presentation only). -/
def RunResult.outputs : RunResult → List String
  | RunResult.unmatched => ["  wut?"]
  | RunResult.cancelledRun _ _ => ["Cancelled"]
  | RunResult.completed resp _ _ _ =>
    (resp.messages.getD []).map (fun m => "  " ++ m)
  | RunResult.crashed _ => []
  | RunResult.blockedRun _ => []

/-- The boolean runCommand returns to the run() loop; none when it does
not return (TypeError propagates, or a prompt blocks forever). -/
def RunResult.keepRunning : RunResult → Option Bool
  | RunResult.unmatched => some true
  | RunResult.cancelledRun _ _ => some true
  | RunResult.completed resp _ _ _ => some resp.success
  | RunResult.crashed _ => none
  | RunResult.blockedRun _ => none

/-- Whether the matched handler was invoked on this dispatch. -/
def RunResult.handlerInvoked : RunResult → Bool
  | RunResult.completed _ _ _ _ => true
  | _ => false

/-- Whether initInput was called to reset the input channel (only the
catch branch at line 158 does). -/
def RunResult.inputReset : RunResult → Bool
  | RunResult.cancelledRun _ _ => true
  | _ => false

/-- Keypress listeners attached during the dispatch (one per getArgument
call, line 117; the source never detaches one). -/
def RunResult.prompts : RunResult → Nat
  | RunResult.unmatched => 0
  | RunResult.cancelledRun _ n => n
  | RunResult.completed _ _ _ n => n
  | RunResult.crashed n => n
  | RunResult.blockedRun n => n

/-- The run() loop state (lines 186-197): running while runCommand keeps
returning true. -/
inductive LoopState where
  | running : LoopState
  | stopped : LoopState
deriving DecidableEq, Repr

/-- One iteration of run()'s while loop, line 193: `running = await
this.runCommand(...)`; none when runCommand does not return. -/
def loopStep (r : RunResult) : Option LoopState :=
  match r.keepRunning with
  | some true => some LoopState.running
  | some false => some LoopState.stopped
  | none => none

/-- ISlimshellConfig (lines 55-59): every field optional. -/
structure ISlimshellConfig where
  title : Option String
  version : Option String
  exitCommands : Option (List String)

/-- The config record stored by the constructor (lines 77-81). -/
structure EffectiveConfig where
  title : String
  version : String
  exitCommands : List String
deriving DecidableEq, Repr

/-- JS errors surfacing in the embedded fragment. -/
inductive JsError where
  | typeError : JsError
deriving DecidableEq, Repr

/-- The defaulting `config.title || DEFAULT_CONFIG.title`: the JS
or-operator falls back on every falsy value, so the empty string also
takes the default. -/
def jsOrDefault (v : Option String) (d : String) : String :=
  match v with
  | none => d
  | some s => if s.isEmpty then d else s

/-- Lines 77-81.  `exitCommands: [...config.exitCommands,
...DEFAULT_CONFIG.exitCommands]` spreads the configured field
unconditionally; when it is undefined the spread throws a TypeError
(undefined is not iterable), unlike title and version which use `||`. -/
def mkEffectiveConfig (c : ISlimshellConfig) : Except JsError EffectiveConfig :=
  match c.exitCommands with
  | none => Except.error JsError.typeError
  | some ecs =>
    Except.ok
      { title := jsOrDefault c.title "Slimshell"
        version := jsOrDefault c.version "1.0.0"
        exitCommands := ecs ++ ["exit"] }

/-- An exit-command definition as installed at line 84. -/
def exitCd (ec : String) : ICommandDefinition :=
  { verb := ec, noun := none, command := exit, requiredArguments := none }

/-- Lines 83-85: `this.cds[ec] = [{ verb: ec, command: exit }]` for each
effective exit command, in order. -/
def installExits : List String → Registry → Registry
  | [], cds => cds
  | ec :: rest, cds => installExits rest (assocSet cds ec [exitCd ec])

/-- The constructor (lines 76-87): build the effective config (which can
throw), then install the exit commands into an empty registry. -/
def constructShell (c : ISlimshellConfig) :
    Except JsError (EffectiveConfig × Registry) :=
  match mkEffectiveConfig c with
  | Except.error e => Except.error e
  | Except.ok eff => Except.ok (eff, installExits eff.exitCommands [])

/-- The fresh record pushed by `on` (line 181). -/
def freshCd (verb : String) : ICommandDefinition :=
  { verb := verb, noun := none, command := NoCommand, requiredArguments := none }

/-- on(verb) (lines 176-184): ensure cds[verb] exists, push a fresh
record with the NoCommand placeholder. -/
def onReg (cds : Registry) (verb : String) : Registry :=
  assocSet cds verb (((cds.lookup verb).getD []) ++ [freshCd verb])

/-- Replace the last element of a list by its image under f. -/
def modifyLast {α : Type} (f : α → α) : List α → List α
  | [] => []
  | x :: rest =>
    match rest with
    | [] => [f x]
    | _ :: _ => x :: modifyLast f rest

/-- A builder stage mutates, by reference, the record that `on` pushed
(lines 210-235).  In an uninterrupted fluent chain that record is the
last element of cds[verb], so the mutation is an in-place update of that
last element. -/
def stageSet (cds : Registry) (verb : String)
    (f : ICommandDefinition → ICommandDefinition) : Registry :=
  assocSet cds verb (modifyLast f ((cds.lookup verb).getD []))

/-- with(noun) (lines 217-222): sets noun on the shared record. -/
def withStage (cds : Registry) (verb noun : String) : Registry :=
  stageSet cds verb (fun cd => { cd with noun := some noun })

/-- call(command) (lines 210-215): sets the handler on the shared record. -/
def callStage (cds : Registry) (verb : String) (h : Command) : Registry :=
  stageSet cds verb (fun cd => { cd with command := h })

/-- requiring(argDefinitions) (lines 230-235): sets requiredArguments. -/
def requiringStage (cds : Registry) (verb : String)
    (reqs : List IArgumentDefinition) : Registry :=
  stageSet cds verb (fun cd => { cd with requiredArguments := some reqs })

/-- The registry effect of the chain on(v).with(n).call(h).requiring(r). -/
def buildFull (cds : Registry) (v n : String) (h : Command)
    (reqs : List IArgumentDefinition) : Registry :=
  requiringStage (callStage (withStage (onReg cds v) v n) v h) v reqs

/-- The registry effect of the chain on(v).call(h). -/
def buildShort (cds : Registry) (v : String) (h : Command) : Registry :=
  callStage (onReg cds v) v h

/-- One completed fluent registration: on(verb), optionally with(noun),
call(handler), optionally requiring(reqs). -/
structure BuildAct where
  verb : String
  noun : Option String
  handler : Command
  reqs : Option (List IArgumentDefinition)

/-- The record such a registration leaves in the registry. -/
def builtCd (a : BuildAct) : ICommandDefinition :=
  { verb := a.verb, noun := a.noun, command := a.handler
    requiredArguments := a.reqs }

/-- Apply one fluent registration to the registry. -/
def applyBuild (cds : Registry) (a : BuildAct) : Registry :=
  let c1 := onReg cds a.verb
  let c2 := match a.noun with
    | none => c1
    | some n => withStage c1 a.verb n
  let c3 := callStage c2 a.verb a.handler
  match a.reqs with
  | none => c3
  | some r => requiringStage c3 a.verb r

/-- Apply a sequence of fluent registrations in order. -/
def applyBuilds (cds : Registry) (acts : List BuildAct) : Registry :=
  acts.foldl applyBuild cds

/-- A fully parsed command line together with the scripted interaction of
its prompts. -/
structure ParsedLine where
  verb : String
  noun : Option String
  bag : Bag
  events : List PromptEvent

/-- Keypress listeners attached to process.stdin after running the given
command lines from a start count: getArgument attaches one listener per
prompt (process.stdin.on, line 117) and no call in the source ever
detaches one — the resolve path (line 124) performs no cleanup, and
initInput (lines 89-99) closes only the readline interface, which does
not remove listeners registered directly on process.stdin. -/
def listenersAfter (cds : Registry) : List ParsedLine → Nat → Nat
  | [], l0 => l0
  | p :: rest, l0 =>
    listenersAfter cds rest
      (l0 + (runCommand cds p.verb p.noun p.bag p.events).prompts)

/-- Sample required argument named token with one alternative flag t. -/
def tokenArg : IArgumentDefinition :=
  { description := "the token", name := "token", alternatives := some ["t"] }

/-- Sample handler that succeeds silently. -/
def echoHandler : Command := fun _ => { success := true, messages := none }

/-- Sample command requiring tokenArg. -/
def loginCd : ICommandDefinition :=
  { verb := "login", noun := none, command := echoHandler
    requiredArguments := some [tokenArg] }

/-- Sample registry holding only loginCd. -/
def loginReg : Registry := [("login", [loginCd])]

/-- Sample required argument whose alternatives field is absent. -/
def bareArg : IArgumentDefinition :=
  { description := "the token", name := "token", alternatives := none }

/-- Sample command requiring bareArg. -/
def signinCd : ICommandDefinition :=
  { verb := "signin", noun := none, command := echoHandler
    requiredArguments := some [bareArg] }

/-- Sample registry holding only signinCd. -/
def signinReg : Registry := [("signin", [signinCd])]

/-- Sample required argument with an empty alternatives list. -/
def emptyAltArg : IArgumentDefinition :=
  { description := "the token", name := "token", alternatives := some [] }

/-- Sample bag in which token is present with the value false. -/
def falseTokenBag : Bag :=
  [("token", some (JSValue.scalar (Scalar.boolVal false)))]

/-- Sample bag in which token is present with a truthy value. -/
def presentBag : Bag := [("token", some (JSValue.scalar (Scalar.str "zzz")))]

/-- Sample noun-less command for verb go. -/
def goCdA : ICommandDefinition :=
  { verb := "go", noun := none, command := NoCommand, requiredArguments := none }

/-- Second sample noun-less command for verb go. -/
def goCdB : ICommandDefinition :=
  { verb := "go", noun := none, command := exit, requiredArguments := none }

/-- Sample registry with two commands on the same (verb, noun) pair. -/
def demoDupReg : Registry := [("go", [goCdA, goCdB])]

/-- The registry produced by construction with no extra exit aliases. -/
def demoExitReg : Registry := [("exit", [exitCd "exit"])]

/-- Sample configuration with an empty exit-alias list. -/
def demoCfg : ISlimshellConfig :=
  { title := none, version := none, exitCommands := some [] }

/-- The effective configuration demoCfg produces. -/
def demoEff : EffectiveConfig :=
  { title := "Slimshell", version := "1.0.0", exitCommands := ["exit"] }

/-- A later user registration of the exit verb with no noun. -/
def shadowAct : BuildAct :=
  { verb := "exit", noun := none, handler := NoCommand, reqs := none }

/-- Sample command line invoking login and answering its prompt once. -/
def loginLine : ParsedLine :=
  { verb := "login", noun := none, bag := [], events := [PromptEvent.submit "abc"] }

/-- Updating a key yields that key's new value on lookup. -/
theorem lookup_assocSet_self {α : Type} :
    ∀ (m : List (String × α)) (k : String) (v : α),
      (assocSet m k v).lookup k = some v
  | [], k, v => by
    simp [assocSet, List.lookup]
  | (k', v') :: rest, k, v => by
    by_cases h : k' = k
    · subst h
      simp [assocSet, List.lookup]
    · have hb : (k == k') = false := beq_eq_false_iff_ne.mpr (Ne.symm h)
      simp only [assocSet, if_neg h]
      simp [List.lookup, hb, lookup_assocSet_self rest k v]

/-- Updating one key leaves every other key's lookup unchanged. -/
theorem lookup_assocSet_ne {α : Type} :
    ∀ (m : List (String × α)) (k k' : String) (v : α), k ≠ k' →
      (assocSet m k v).lookup k' = m.lookup k'
  | [], k, k', v, h => by
    have hb : (k' == k) = false := beq_eq_false_iff_ne.mpr (Ne.symm h)
    simp [assocSet, List.lookup, hb]
  | (a, b) :: rest, k, k', v, h => by
    by_cases ha : a = k
    · subst ha
      have hb : (k' == a) = false := beq_eq_false_iff_ne.mpr (Ne.symm h)
      simp [assocSet, List.lookup, hb]
    · simp only [assocSet, if_neg ha]
      by_cases hk : k' = a
      · subst hk
        simp [List.lookup]
      · have hb : (k' == a) = false := beq_eq_false_iff_ne.mpr hk
        simp [List.lookup, hb, lookup_assocSet_ne rest k k' v h]

/-- Two successive updates of the same key collapse to the second. -/
theorem assocSet_assocSet {α : Type} :
    ∀ (m : List (String × α)) (k : String) (v w : α),
      assocSet (assocSet m k v) k w = assocSet m k w
  | [], k, v, w => by simp [assocSet]
  | (k', v') :: rest, k, v, w => by
    by_cases h : k' = k
    · subst h; simp [assocSet]
    · simp [assocSet, h, assocSet_assocSet rest k v w]

theorem modifyLast_append {α : Type} (f : α → α) :
    ∀ (l : List α) (x : α), modifyLast f (l ++ [x]) = l ++ [f x]
  | [], x => rfl
  | a :: l, x => by
    cases l with
    | nil => rfl
    | cons b bs =>
      exact congrArg (fun t => a :: t) (modifyLast_append f (b :: bs) x)

/-- A builder stage applied right after a push mutates the record that
was pushed. -/
theorem stage_after_push (cds : Registry) (v : String)
    (l0 : List ICommandDefinition) (cd : ICommandDefinition)
    (f : ICommandDefinition → ICommandDefinition) :
    stageSet (assocSet cds v (l0 ++ [cd])) v f
      = assocSet cds v (l0 ++ [f cd]) := by
  unfold stageSet
  rw [lookup_assocSet_self]
  simp only [Option.getD_some]
  rw [modifyLast_append, assocSet_assocSet]

/-- List.find? returns the first element satisfying the predicate: an
element at index i with no earlier match is the result. -/
theorem find_first {α : Type} (p : α → Bool) :
    ∀ (l : List α) (i : Nat) (h : i < l.length),
      p (l.get ⟨i, h⟩) = true →
      (∀ (j : Nat) (hj : j < i), p (l.get ⟨j, Nat.lt_trans hj h⟩) = false) →
      l.find? p = some (l.get ⟨i, h⟩)
  | [], i, h, _, _ => absurd h (Nat.not_lt_zero i)
  | a :: l, 0, h, hp, _ => by
    simp only [List.get] at hp
    simp [List.find?, hp]
  | a :: l, i + 1, h, hp, hearly => by
    have ha : p a = false := hearly 0 (Nat.succ_pos i)
    have ih := find_first p l i (Nat.lt_of_succ_lt_succ h) hp
      (fun j hj => hearly (j + 1) (Nat.succ_lt_succ hj))
    simp [List.find?, ha, ih]

/-- installExits touches only the keys it installs. -/
theorem installExits_lookup_notMem :
    ∀ (ecs : List String) (cds : Registry) (ec : String), ec ∉ ecs →
      (installExits ecs cds).lookup ec = cds.lookup ec
  | [], cds, ec, _ => rfl
  | e :: rest, cds, ec, h => by
    have h1 : ec ≠ e := fun heq => h (heq ▸ List.mem_cons_self e rest)
    have h2 : ec ∉ rest := fun hm => h (List.mem_cons_of_mem e hm)
    show (installExits rest (assocSet cds e [exitCd e])).lookup ec = _
    rw [installExits_lookup_notMem rest _ ec h2,
      lookup_assocSet_ne _ e ec _ (Ne.symm h1)]

/-- After the constructor's loop, every effective exit command maps to the
singleton list holding its exit definition. -/
theorem installExits_lookup_mem :
    ∀ (ecs : List String) (cds : Registry) (ec : String), ec ∈ ecs →
      (installExits ecs cds).lookup ec = some [exitCd ec]
  | [], _, ec, h => absurd h (List.not_mem_nil ec)
  | e :: rest, cds, ec, h => by
    by_cases hm : ec ∈ rest
    · exact installExits_lookup_mem rest _ ec hm
    · have he : ec = e := by
        rcases List.mem_cons.mp h with h1 | h1
        · exact h1
        · exact absurd h1 hm
      subst he
      show (installExits rest (assocSet cds ec [exitCd ec])).lookup ec = _
      rw [installExits_lookup_notMem rest _ ec hm, lookup_assocSet_self]

/-- Normal form of one fluent registration: it appends exactly the built
record to the verb's list. -/
theorem applyBuild_eq (cds : Registry) (a : BuildAct) :
    applyBuild cds a
      = assocSet cds a.verb (((cds.lookup a.verb).getD []) ++ [builtCd a]) := by
  rcases a with ⟨v, noun, h, reqs⟩
  cases noun with
  | none =>
    cases reqs with
    | none =>
      show callStage (onReg cds v) v h = _
      unfold onReg callStage
      rw [stage_after_push]
      rfl
    | some r =>
      show requiringStage (callStage (onReg cds v) v h) v r = _
      unfold onReg callStage requiringStage
      rw [stage_after_push, stage_after_push]
      rfl
  | some n =>
    cases reqs with
    | none =>
      show callStage (withStage (onReg cds v) v n) v h = _
      unfold onReg withStage callStage
      rw [stage_after_push, stage_after_push]
      rfl
    | some r =>
      show requiringStage (callStage (withStage (onReg cds v) v n) v h) v r = _
      unfold onReg withStage callStage requiringStage
      rw [stage_after_push, stage_after_push, stage_after_push]
      rfl

/-- Later fluent registrations never displace the head of a verb's list:
an exit definition installed first stays first. -/
theorem applyBuilds_head_exit :
    ∀ (acts : List BuildAct) (cds : Registry) (ec : String)
      (tail : List ICommandDefinition),
      cds.lookup ec = some (exitCd ec :: tail) →
      ∃ tail2, (applyBuilds cds acts).lookup ec = some (exitCd ec :: tail2)
  | [], cds, ec, tail, h => ⟨tail, h⟩
  | a :: acts, cds, ec, tail, h => by
    show ∃ tail2, (applyBuilds (applyBuild cds a) acts).lookup ec
        = some (exitCd ec :: tail2)
    by_cases hv : a.verb = ec
    · have hstep : (applyBuild cds a).lookup ec
          = some (exitCd ec :: (tail ++ [builtCd a])) := by
        rw [applyBuild_eq, hv, h, lookup_assocSet_self]
        rfl
      exact applyBuilds_head_exit acts _ ec _ hstep
    · have hstep : (applyBuild cds a).lookup ec = some (exitCd ec :: tail) := by
        rw [applyBuild_eq, lookup_assocSet_ne _ _ _ _ hv, h]
      exact applyBuilds_head_exit acts _ ec tail hstep

/-- Inversion of a completed dispatch: the response is the matched
definition's handler applied to the final bag. -/
theorem runCommand_completed_handler (cds : Registry) (verb : String)
    (noun : Option String) (bag : Bag) (events : List PromptEvent)
    (resp : ICommandResponse) (bag1 : Bag) (ev : List PromptEvent) (n : Nat)
    (h : runCommand cds verb noun bag events = RunResult.completed resp bag1 ev n) :
    ∃ cd, lookupCd cds verb noun = some cd ∧ resp = cd.command bag1 := by
  unfold runCommand at h
  split at h
  · exact absurd h (fun hh => RunResult.noConfusion hh)
  · rename_i cd heq
    split at h
    · injection h with h1 h2 h3 h4
      exact ⟨cd, heq, by rw [← h1, h2]⟩
    · rename_i reqs hreq
      split at h
      · injection h with h1 h2 h3 h4
        exact ⟨cd, heq, by rw [← h1, h2]⟩
      · exact absurd h (fun hh => RunResult.noConfusion hh)
      · exact absurd h (fun hh => RunResult.noConfusion hh)
      · exact absurd h (fun hh => RunResult.noConfusion hh)

/-- C1: refuted as stated by the code; at the spec's own example — required
argument token with alternatives [t] and bag containing t with value "abc" —
resolution terminates without prompting but stores the alternative's NAME
"t" under token, not its value "abc", because Array.prototype.find at line
149 returns the matching element of the alternatives array. -/
theorem c1_alternative_name_copied :
    runCommand loginReg "login" none
        [("t", some (JSValue.scalar (Scalar.str "abc")))] []
      = RunResult.completed { success := true, messages := none }
          [("t", some (JSValue.scalar (Scalar.str "abc"))),
           ("token", some (JSValue.scalar (Scalar.str "t")))] [] 0 := rfl

/-- C2: refuted as stated by the code; a configuration that omits
exitCommands makes the constructor throw a TypeError at line 80 (spreading
undefined), instead of defaulting the exit-verb set to exit. -/
theorem c2_omitted_exit_commands_throw :
    constructShell { title := none, version := none, exitCommands := none }
      = Except.error JsError.typeError := rfl

/-- C3: refuted as stated by the code; a required argument whose
alternatives field is absent and whose name is missing from the bag makes
line 149 call find on undefined, so resolution crashes with a TypeError
before any prompt instead of treating the scan as a no-op. -/
theorem c3_missing_alternatives_crashes :
    runCommand signinReg "signin" none [] [PromptEvent.submit "xyz"]
      = RunResult.crashed 0 := rfl

/-- C4 counterexample: a required argument present in the bag with the
falsy value false DOES trigger a prompt (line 148 tests truthiness, not
presence), and its value is replaced by the prompted input. -/
theorem c4_present_falsy_value_prompts :
    (resolveArgs [emptyAltArg] falseTokenBag [PromptEvent.submit "xyz"] 0).prompts ≠ 0
    ∧ resolveArgs [emptyAltArg] falseTokenBag [PromptEvent.submit "xyz"] 0
        = ResolveOutcome.resolved
            [("token", some (JSValue.scalar (Scalar.str "xyz")))] [] 1 := by
  constructor
  · decide
  · rfl

/-- C4 (amended): a required argument whose primary name is present in the
bag with a TRUTHY value is skipped entirely by resolution — no prompt is
issued and the bag is left unchanged; a present falsy value (false, 0, the
empty string) is instead treated as missing. -/
theorem c4_truthy_present_skips :
    ∀ (req : IArgumentDefinition) (rest : List IArgumentDefinition) (bag : Bag)
      (events : List PromptEvent) (n : Nat),
      truthyOpt (bagGet bag req.name) = true →
      resolveArgs (req :: rest) bag events n = resolveArgs rest bag events n := by
  intro req rest bag events n h
  simp only [resolveArgs]
  rw [if_pos h]

/-- C4 witness: with token present as the truthy string "zzz", resolution
of the token argument reduces to resolution of the remaining arguments. -/
theorem c4_truthy_present_skips_witness :
    truthyOpt (bagGet presentBag "token") = true
    ∧ resolveArgs [tokenArg] presentBag [] 0 = resolveArgs [] presentBag [] 0 :=
  ⟨rfl, c4_truthy_present_skips tokenArg [] presentBag [] 0 rfl⟩

/-- C5: lookup returns the first definition in insertion order for the verb
whose noun equals the parsed noun (both unset comparing equal); and since
the constructor installs exit definitions first, a user command later
registered with an exit verb and no noun is never selected — lookup still
returns the exit definition. -/
theorem c5_first_match_and_exit_shadowing :
    (∀ (cds : Registry) (verb : String) (noun : Option String)
        (defs : List ICommandDefinition) (i : Nat) (h : i < defs.length),
        cds.lookup verb = some defs →
        (defs.get ⟨i, h⟩).noun = noun →
        (∀ (j : Nat) (hj : j < i), (defs.get ⟨j, Nat.lt_trans hj h⟩).noun ≠ noun) →
        lookupCd cds verb noun = some (defs.get ⟨i, h⟩))
    ∧ (∀ (c : ISlimshellConfig) (eff : EffectiveConfig) (reg : Registry)
        (acts : List BuildAct) (ec : String),
        constructShell c = Except.ok (eff, reg) →
        ec ∈ eff.exitCommands →
        lookupCd (applyBuilds reg acts) ec none = some (exitCd ec)) := by
  constructor
  · intro cds verb noun defs i h hlook hnoun hearly
    unfold lookupCd
    rw [hlook]
    exact find_first (fun d => decide (d.noun = noun)) defs i h
      (by simp only [decide_eq_true_eq]; exact hnoun)
      (fun j hj => by simp only [decide_eq_false_iff_not]; exact hearly j hj)
  · intro c eff reg acts ec hcons hmem
    have hreg : reg.lookup ec = some [exitCd ec] := by
      unfold constructShell at hcons
      cases hmk : mkEffectiveConfig c with
      | error e =>
        rw [hmk] at hcons
        exact absurd hcons (fun hh => Except.noConfusion hh)
      | ok eff2 =>
        rw [hmk] at hcons
        have hpair : (eff2, installExits eff2.exitCommands []) = (eff, reg) := by
          injection hcons
        have he : eff2 = eff := congrArg Prod.fst hpair
        have hr : installExits eff2.exitCommands [] = reg := congrArg Prod.snd hpair
        subst hr
        subst he
        exact installExits_lookup_mem eff2.exitCommands [] ec hmem
    obtain ⟨tail2, hfin⟩ := applyBuilds_head_exit acts reg ec [] hreg
    unfold lookupCd
    rw [hfin]
    simp [List.find?, exitCd]

/-- C5 witness: with two noun-less definitions registered for verb go, the
first one wins; and after registering a user exit command on the registry
that construction produced, lookup of the bare exit verb still yields the
built-in exit definition. -/
theorem c5_first_match_and_exit_shadowing_witness :
    lookupCd demoDupReg "go" none = some goCdA
    ∧ lookupCd (applyBuilds demoExitReg [shadowAct]) "exit" none
        = some (exitCd "exit") := by
  constructor
  · exact c5_first_match_and_exit_shadowing.1 demoDupReg "go" none [goCdA, goCdB]
      0 (by decide) rfl rfl (fun j hj => absurd hj (Nat.not_lt_zero j))
  · exact c5_first_match_and_exit_shadowing.2 demoCfg demoEff demoExitReg
      [shadowAct] "exit" rfl (by decide)

/-- C6: when a dispatch completes, the invoked handler is the matched
definition's, each of its messages is printed (two-space indented), and the
loop stops exactly when the response's success is false; an unmatched
command or a cancelled resolution always leaves the loop running. -/
theorem c6_handler_result_drives_loop :
    ∀ (cds : Registry) (verb : String) (noun : Option String) (bag : Bag)
      (events : List PromptEvent),
      (∀ (resp : ICommandResponse) (bag1 : Bag) (ev : List PromptEvent) (n : Nat),
        runCommand cds verb noun bag events = RunResult.completed resp bag1 ev n →
        (∃ cd, lookupCd cds verb noun = some cd ∧ resp = cd.command bag1)
        ∧ (runCommand cds verb noun bag events).outputs
            = (resp.messages.getD []).map (fun m => "  " ++ m)
        ∧ (loopStep (runCommand cds verb noun bag events) = some LoopState.stopped
            ↔ resp.success = false))
    ∧ (runCommand cds verb noun bag events = RunResult.unmatched →
        loopStep (runCommand cds verb noun bag events) = some LoopState.running)
    ∧ (∀ (ev : List PromptEvent) (n : Nat),
        runCommand cds verb noun bag events = RunResult.cancelledRun ev n →
        loopStep (runCommand cds verb noun bag events) = some LoopState.running) := by
  intro cds verb noun bag events
  refine ⟨?_, ?_, ?_⟩
  · intro resp bag1 ev n h
    refine ⟨runCommand_completed_handler cds verb noun bag events resp bag1 ev n h,
      ?_, ?_⟩
    · rw [h]; rfl
    · rw [h]
      rcases resp with ⟨succ, msgs⟩
      cases succ
      · simp [loopStep, RunResult.keepRunning]
      · simp [loopStep, RunResult.keepRunning]
  · intro h; rw [h]; rfl
  · intro ev n h; rw [h]; rfl

/-- C6 witness: dispatching the built-in exit command invokes its handler,
prints byeee, and stops the loop because success is false. -/
theorem c6_handler_result_drives_loop_witness :
    (∃ cd, lookupCd demoExitReg "exit" none = some cd
        ∧ ({ success := false, messages := some ["byeee"] } : ICommandResponse)
            = cd.command ([] : Bag))
    ∧ (runCommand demoExitReg "exit" none [] []).outputs = ["  byeee"]
    ∧ (loopStep (runCommand demoExitReg "exit" none [] []) = some LoopState.stopped
        ↔ ({ success := false, messages := some ["byeee"] } : ICommandResponse).success
            = false) :=
  (c6_handler_result_drives_loop demoExitReg "exit" none [] []).1
    { success := false, messages := some ["byeee"] } [] [] 0 rfl

/-- C7: a cancellation during an argument prompt aborts the whole command:
exactly a Cancelled notice is printed, the handler is never invoked, the
input channel is reset, and the loop remains running (the partial bag is
discarded — the result carries no bag for a handler to see). -/
theorem c7_cancellation_aborts_command :
    ∀ (cds : Registry) (verb : String) (noun : Option String) (bag : Bag)
      (events ev : List PromptEvent) (n : Nat),
      runCommand cds verb noun bag events = RunResult.cancelledRun ev n →
      (runCommand cds verb noun bag events).outputs = ["Cancelled"]
      ∧ (runCommand cds verb noun bag events).handlerInvoked = false
      ∧ (runCommand cds verb noun bag events).inputReset = true
      ∧ loopStep (runCommand cds verb noun bag events) = some LoopState.running := by
  intro cds verb noun bag events ev n h
  rw [h]
  exact ⟨rfl, rfl, rfl, rfl⟩

/-- C7 witness: cancelling the token prompt of the login command emits
Cancelled, skips the handler, resets the input, and keeps the loop
running. -/
theorem c7_cancellation_aborts_command_witness :
    (runCommand loginReg "login" none [] [PromptEvent.cancel]).outputs = ["Cancelled"]
    ∧ (runCommand loginReg "login" none [] [PromptEvent.cancel]).handlerInvoked = false
    ∧ (runCommand loginReg "login" none [] [PromptEvent.cancel]).inputReset = true
    ∧ loopStep (runCommand loginReg "login" none [] [PromptEvent.cancel])
        = some LoopState.running :=
  c7_cancellation_aborts_command loginReg "login" none [] [PromptEvent.cancel] [] 1 rfl

/-- C8: refuted as stated by the code; each prompt attaches a fresh
keypress listener to the input channel and no path ever detaches one, so
after one prompting command one stale listener remains, and a second
prompting command raises the count to two — the count accumulates. -/
theorem c8_keypress_listeners_accumulate :
    listenersAfter loginReg [loginLine] 0 = 1
    ∧ listenersAfter loginReg [loginLine, loginLine] 0 = 2 := ⟨rfl, rfl⟩

/-- C9: the builder sequences on-with-call-requiring-run and on-call-run
each install exactly one definition per on call, appended to the verb's
list, whose fields are the last value set by each stage — the stages all
mutate the single record that on pushed. -/
theorem c9_builder_shared_record (cds : Registry) (v n : String) (h : Command)
    (reqs : List IArgumentDefinition) :
    buildFull cds v n h reqs
      = assocSet cds v (((cds.lookup v).getD [])
          ++ [{ verb := v, noun := some n, command := h
                requiredArguments := some reqs }])
    ∧ buildShort cds v h
      = assocSet cds v (((cds.lookup v).getD [])
          ++ [{ verb := v, noun := none, command := h
                requiredArguments := none }]) := by
  constructor
  · unfold buildFull onReg withStage callStage requiringStage
    rw [stage_after_push, stage_after_push, stage_after_push]
    rfl
  · unfold buildShort onReg callStage
    rw [stage_after_push]
    rfl

/-- C10: a verb registered via on whose call stage never ran is still
installed and dispatchable: dispatching it runs the NoCommand placeholder,
which succeeds with no messages, so nothing is printed and the loop keeps
running. -/
theorem c10_uncalled_on_still_dispatches :
    ∀ (cds : Registry) (v : String) (bag : Bag) (events : List PromptEvent),
      cds.lookup v = none →
      runCommand (onReg cds v) v none bag events
        = RunResult.completed { success := true, messages := none } bag events 0
      ∧ (runCommand (onReg cds v) v none bag events).outputs = []
      ∧ loopStep (runCommand (onReg cds v) v none bag events)
          = some LoopState.running := by
  intro cds v bag events h
  have hrc : runCommand (onReg cds v) v none bag events
      = RunResult.completed { success := true, messages := none } bag events 0 := by
    unfold runCommand lookupCd onReg
    rw [h, lookup_assocSet_self]
    rfl
  exact ⟨hrc, by rw [hrc]; rfl, by rw [hrc]; rfl⟩

/-- C10 witness: registering hello via on alone and dispatching it yields
the silent success of the placeholder handler. -/
theorem c10_uncalled_on_still_dispatches_witness :
    runCommand (onReg [] "hello") "hello" none [] []
      = RunResult.completed { success := true, messages := none } [] [] 0
    ∧ (runCommand (onReg [] "hello") "hello" none [] []).outputs = []
    ∧ loopStep (runCommand (onReg [] "hello") "hello" none [] [])
        = some LoopState.running :=
  c10_uncalled_on_still_dispatches [] "hello" [] [] rfl

end Slimshell
